import Mathlib

/-!
Verification development for the `Utility` Go package (dynamic type/function
registry, reflective object materializer, scalar coercion layer).

Shallow embedding conventions:
* Go dynamic values (`interface{}` trees as decoded from JSON-like documents)
  are modelled by the inductive `Value`.  Go `map[string]interface{}` is an
  association list; Go map iteration order is modelled as list order and the
  documents are assumed to have pairwise distinct keys (Go maps cannot hold
  duplicates).
* Go `float64` is modelled as an exact rational (`ℚ`).  `int` is modelled as a
  64-bit signed mathematical integer; wrap-around is made explicit where the
  source performs a narrowing conversion.
* Functions that can `panic` (or `log.Panicln`) in Go return `Option`;
  `none` models a panic/abort.
* `reflect.Value` results of the materializer are modelled by `GoVal`;
  the invalid (zero) `reflect.Value` is `GoVal.vinvalid`.
-/

/-- Dynamic Go value (`interface{}`), as appearing in documents. `uint8v`
models a dynamically-typed `uint8` scalar (distinct from `int` in Go's
reflection, which matters to the coercion switches). -/
inductive Value where
  | null : Value
  | str : String → Value
  | int : Int → Value
  | uint8v : Nat → Value
  | float : ℚ → Value
  | bool : Bool → Value
  | bytes : List Nat → Value
  | doc : List (String × Value) → Value
  | arr : List Value → Value

-- Size measure on `Value`, used for termination of the recursive
-- materializer.  `bytes` is weighted by its length because the array filler
-- can recurse into the individual bytes of a `[]uint8` element.
mutual
def vsize : Value → Nat
  | .doc d => 1 + dsize d
  | .arr xs => 1 + lsize xs
  | .bytes bs => 1 + 2 * bs.length
  | _ => 1

def dsize : List (String × Value) → Nat
  | [] => 0
  | (_, v) :: r => vsize v + dsize r + 1

def lsize : List Value → Nat
  | [] => 0
  | v :: r => vsize v + lsize r + 1
end

/-- Go `strconv.Atoi` semantics with the error ignored, as in
`val, _ := strconv.Atoi(value.(string))`: a purely decimal string with
optional sign parses to its value clamped into the 64-bit signed range
(`Atoi` returns the clamped value together with `ErrRange`); any syntax
error yields 0. -/
def goAtoi (s : String) : Int :=
  let cs := s.toList
  let signed : Int × List Char :=
    match cs with
    | '+' :: r => (1, r)
    | '-' :: r => (-1, r)
    | _ => (1, cs)
  let (sg, ds) := signed
  if ds = [] ∨ ¬ ds.all Char.isDigit then 0
  else
    let v : Int := sg * (ds.foldl (fun a c => a * 10 + (c.toNat - 48)) 0 : Nat)
    if v > (2 : Int) ^ 63 - 1 then (2 : Int) ^ 63 - 1
    else if v < -((2 : Int) ^ 63) then -((2 : Int) ^ 63)
    else v

/-- Go `strconv.ParseBool`: the exact accepted token list. -/
def goParseBool (s : String) : Option Bool :=
  if s = "1" ∨ s = "t" ∨ s = "T" ∨ s = "TRUE" ∨ s = "true" ∨ s = "True" then some true
  else if s = "0" ∨ s = "f" ∨ s = "F" ∨ s = "FALSE" ∨ s = "false" ∨ s = "False" then some false
  else none

/-- Decimal digit run parser helper: splits leading digits. -/
def spanDigits (cs : List Char) : List Char × List Char :=
  match cs with
  | [] => ([], [])
  | c :: r =>
    if c.isDigit then
      let (d, rest) := spanDigits r
      (c :: d, rest)
    else ([], c :: r)

/-- Digits to natural number. -/
def digitsVal (ds : List Char) : Nat :=
  ds.foldl (fun a c => a * 10 + (c.toNat - 48)) 0

/-- Go `strconv.ParseFloat` semantics with the error ignored, restricted to
plain decimal syntax (optional sign, digits with optional fraction, optional
decimal exponent).  Inputs outside this grammar (including "Inf"/"NaN"/hex
floats, which have no exact-rational meaning) yield 0, as does any syntax
error in the source's `val, _ :=` idiom. -/
def goParseFloat (s : String) : ℚ :=
  let cs := s.toList
  let signed : ℚ × List Char :=
    match cs with
    | '+' :: r => (1, r)
    | '-' :: r => (-1, r)
    | _ => (1, cs)
  let (sg, cs1) := signed
  let (ip, cs2) := spanDigits cs1
  let fracPart : Option (List Char × List Char) :=
    match cs2 with
    | '.' :: r => some (spanDigits r)
    | _ => some ([], cs2)
  match fracPart with
  | none => 0
  | some (fp, cs3) =>
    if ip = [] ∧ fp = [] then 0
    else
      let mant : ℚ := (digitsVal ip : ℚ) + (digitsVal fp : ℚ) / (10 : ℚ) ^ fp.length
      match cs3 with
      | [] => sg * mant
      | e :: r =>
        if e = 'e' ∨ e = 'E' then
          let esigned : Int × List Char :=
            match r with
            | '+' :: r2 => (1, r2)
            | '-' :: r2 => (-1, r2)
            | _ => (1, r)
          let (es, r2) := esigned
          let (eds, r3) := spanDigits r2
          if eds = [] ∨ r3 ≠ [] then 0
          else sg * mant * (10 : ℚ) ^ (es * (digitsVal eds : Int))
        else 0

/-- Truncation toward zero, the integer part produced by Go's `math.Modf`
and by Go's float-to-int conversion. -/
def ratTrunc (q : ℚ) : ℤ := if 0 ≤ q then ⌊q⌋ else ⌈q⌉

/-- Reduction of an unsigned 64-bit quantity into Go's (64-bit) signed `int`,
two's-complement. -/
def toSigned64 (n : Nat) : Int :=
  if n % 2 ^ 64 < 2 ^ 63 then (n % 2 ^ 64 : Int) else (n % 2 ^ 64 : Int) - 2 ^ 64

/-- Big-endian unsigned value of the FIRST eight bytes of a byte list, the
quantity read by `binary.BigEndian.Uint64` (which panics when fewer than eight
bytes are available, and ignores bytes past the eighth). -/
def beUint64 (bs : List Nat) : Nat :=
  ((bs.take 8).foldl (fun a b => a * 256 + b % 256) 0)

/-- Bytes rendered as a Go string (`string(value.([]uint8))`), byte-per-char. -/
def bytesAsString (bs : List Nat) : String :=
  String.mk (bs.map (fun b => Char.ofNat (b % 256)))

/-- UTF-8 bytes of a string (Go `[]byte(s)`). -/
def stringBytes (s : String) : List Nat :=
  s.toUTF8.toList.map (fun b => b.toNat)

/-- Whitespace predicate of Go's `unicode.IsSpace` on the characters that can
occur here (ASCII space classes plus NEL and NBSP; the rarer Unicode space
classes do not occur in the claims' inputs). -/
def goIsSpace (c : Char) : Bool :=
  c = ' ' ∨ c = '\t' ∨ c = '\n' ∨ c.toNat = 11 ∨ c.toNat = 12 ∨ c = '\r' ∨
    c.toNat = 133 ∨ c.toNat = 160

/-- Go `strings.TrimSpace`, implemented structurally over the character
list so that concrete evaluations reduce. -/
def goTrim (s : String) : String :=
  String.mk (((s.toList.dropWhile goIsSpace).reverse.dropWhile goIsSpace).reverse)

/-- Go `strings.HasPrefix`, implemented structurally. -/
def goStartsWith (s p : String) : Bool :=
  p.toList.isPrefixOf s.toList

/-- Bytewise (code-point-wise) string order used when `encoding/json` sorts
map keys. -/
def charListLe : List Char → List Char → Bool
  | [], _ => true
  | _ :: _, [] => false
  | a :: as, b :: bs =>
    if a.toNat < b.toNat then true
    else if b.toNat < a.toNat then false
    else charListLe as bs

def keyLe (a b : String) : Bool := charListLe a.toList b.toList

/-- Two-digit lowercase hex of a byte, for JSON control-character escapes. -/
def hex2 (n : Nat) : String :=
  let d := "0123456789abcdef".toList
  String.mk [d.getD (n / 16 % 16) '0', d.getD (n % 16) '0']

/-- Per-character JSON escaping as performed by `encoding/json` (quote,
backslash, newline/carriage-return/tab shortcuts, other control characters as
`\u00xx`, and the HTML-safe escapes for angle brackets and ampersand). -/
def jsonEscapeChar (c : Char) : String :=
  if c = '"' then "\\\""
  else if c = '\\' then "\\\\"
  else if c = '\n' then "\\n"
  else if c = '\r' then "\\r"
  else if c = '\t' then "\\t"
  else if c = '<' then "\\u003c"
  else if c = '>' then "\\u003e"
  else if c = '&' then "\\u0026"
  else if c.toNat < 32 then "\\u00" ++ hex2 c.toNat
  else String.singleton c

/-- JSON string literal for `s`. -/
def jsonQuote (s : String) : String :=
  "\"" ++ String.join (s.toList.map jsonEscapeChar) ++ "\""

/-- Base64 (standard alphabet, padded) encoding, as `encoding/json` applies to
`[]byte` values. -/
def b64char (n : Nat) : Char :=
  "ABCDEFGHIJKLMNOPQRSTUVWXYZabcdefghijklmnopqrstuvwxyz0123456789+/".toList.getD n 'A'

def b64encode : List Nat → String
  | [] => ""
  | [a] =>
    String.mk [b64char (a % 256 / 4), b64char (a % 256 % 4 * 16)] ++ "=="
  | [a, b] =>
    String.mk [b64char (a % 256 / 4), b64char (a % 256 % 4 * 16 + b % 256 / 16),
      b64char (b % 256 % 16 * 4)] ++ "="
  | a :: b :: c :: rest =>
    String.mk [b64char (a % 256 / 4), b64char (a % 256 % 4 * 16 + b % 256 / 16),
      b64char (b % 256 % 16 * 4 + c % 256 / 64), b64char (c % 256 % 64)] ++ b64encode rest

/-- Fractional decimal digits of a rational in `[0,1)`; the fuel bound exceeds
the longest exact decimal expansion of any binary64 value, so for values in
the float model the rendering is exact and terminates at the last nonzero
digit. -/
def fracDigits : Nat → ℚ → String
  | 0, _ => ""
  | n + 1, q =>
    if q = 0 then ""
    else
      let d := (⌊q * 10⌋).toNat
      toString d ++ fracDigits n (q * 10 - (d : ℚ))

/-- Exact plain-decimal rendering of a rational, the model of Go's
`strconv.FormatFloat(x, 'f', -1, 64)` (shortest round-tripping decimal) under
the exact-rational float model. -/
def ratDecString (q : ℚ) : String :=
  let sgn := if q < 0 then "-" else ""
  let a := |q|
  let ip := (⌊a⌋).toNat
  let frac := a - (ip : ℚ)
  if frac = 0 then sgn ++ toString ip
  else sgn ++ toString ip ++ "." ++ fracDigits 1200 frac

/-- Insertion into a key-sorted association list (ascending, as
`encoding/json` sorts map keys). -/
def insertByKey (p : String × Value) : List (String × Value) → List (String × Value)
  | [] => [p]
  | q :: r => if keyLe p.1 q.1 then p :: q :: r else q :: insertByKey p r

def sortByKey (l : List (String × Value)) : List (String × Value) :=
  l.foldr insertByKey []

/-- Model of `json.Marshal` on the `Value` universe (every `Value` marshals
without error: there are no NaN/Inf floats or unsupported kinds in the model).
The outer fuel is a termination device; `jsonOfValue` supplies enough fuel for
full recursion, so the rendering is total and exact. -/
def jfuel : Nat → Value → String
  | 0, _ => ""
  | _ + 1, .null => "null"
  | _ + 1, .str s => jsonQuote s
  | _ + 1, .int n => toString n
  | _ + 1, .uint8v b => toString (b % 256)
  | _ + 1, .float q => ratDecString q
  | _ + 1, .bool b => if b then "true" else "false"
  | _ + 1, .bytes bs => jsonQuote (b64encode bs)
  | n + 1, .doc d =>
    "\x7b" ++ String.intercalate ","
      ((sortByKey d).map (fun p => jsonQuote p.1 ++ ":" ++ jfuel n p.2)) ++ "\x7d"
  | n + 1, .arr xs =>
    "[" ++ String.intercalate "," (xs.map (fun v => jfuel n v)) ++ "]"

def jsonOfValue (v : Value) : String := jfuel (vsize v + 1) v

/-- Model of `ToString` (number.go).  `none` is the `log.Panicln` abort on a
kind with no conversion rule.  The final `strings.TrimSpace` applies to every
branch except the early-returning map branch, exactly as in the source.  The
source's per-width integer cases all render decimally, as here. -/
def goToString (value : Value) : Option String :=
  match value with
  | .null => none
  | .str s => some (goTrim s)
  | .int n => some (goTrim (toString n))
  | .uint8v b => some (goTrim (toString (b % 256)))
  | .float q => some (goTrim (ratDecString q))
  | .bool b => some (goTrim (if b then "true" else "false"))
  | .bytes bs => some (goTrim (bytesAsString bs))
  | .doc d => some (jsonOfValue (.doc d))
  | .arr _ => none

/-- Model of `ToInt` (number.go).  `none` models `log.Panicln` for kinds with
no rule (including `uint8`, absent from the source's switch) and the
out-of-range panic of `binary.BigEndian.Uint64` on byte sequences shorter than
eight bytes. -/
def goToInt (value : Value) : Option Int :=
  match value with
  | .null => some 0
  | .str s => some (goAtoi s)
  | .int n => some n
  | .float q => some (ratTrunc q)
  | .bool b => some (if b then 1 else 0)
  | .bytes bs => if bs.length < 8 then none else some (toSigned64 (beUint64 bs))
  | .uint8v _ => none
  | .doc _ => none
  | .arr _ => none

/-- Model of `ToBool` (number.go): `reflect.TypeOf(value).Kind()` panics on a
nil interface, hence `none` on null; only bool and string convert, everything
else is `false`. -/
def goToBool (value : Value) : Option Bool :=
  match value with
  | .null => none
  | .bool b => some b
  | .str s =>
    match goParseBool s with
    | some b => some b
    | none => some false
  | _ => some false

/-- Model of `ToNumeric` (number.go).  `none` models the nil-interface
`Kind()` panic on null and `log.Panicln` on unsupported kinds (`uint8`, byte
slices, maps, untyped arrays; `time.Time` does not occur in the document
value universe). -/
def goToNumeric (value : Value) : Option ℚ :=
  match value with
  | .null => none
  | .str s => some (goParseFloat s)
  | .int n => some (n : ℚ)
  | .float q => some q
  | .bool b => some (if b then 1 else 0)
  | .uint8v _ => none
  | .bytes _ => none
  | .doc _ => none
  | .arr _ => none

/-- Model of `Round` (number.go) over the exact-rational float model.  The
scale is `math.Pow(10, n)`; the `1e17` magnitude guard, the `math.Modf`
split, and the half-to-even adjustment follow the source line by line.  The
source's `uint64(v)%2 != 0` parity probe is modelled as `v.natAbs % 2 ≠ 0`:
the float-to-uint64 conversion on amd64 reduces modulo `2^64`, which
preserves parity. -/
def Round (x : ℚ) (n : ℤ) : ℚ :=
  let pow : ℚ := (10 : ℚ) ^ n
  if |x * pow| > (10 : ℚ) ^ (17 : ℕ) then x
  else
    let v : ℤ := ratTrunc (x * pow)
    let frac : ℚ := x * pow - (v : ℚ)
    let v2 : ℤ :=
      if 0 < x then
        if 1 / 2 < frac ∨ (frac = 1 / 2 ∧ v.natAbs % 2 ≠ 0) then v + 1 else v
      else
        if frac < -(1 / 2) ∨ (frac = -(1 / 2) ∧ v.natAbs % 2 ≠ 0) then v - 1 else v
    (v2 : ℚ) / pow

/-- Specification-side definition of round-half-to-even at integer precision,
used to state the rounding claim (C8) against `Round`. -/
def rhte (y : ℚ) : ℤ :=
  if y - (⌊y⌋ : ℚ) < 1 / 2 then ⌊y⌋
  else if 1 / 2 < y - (⌊y⌋ : ℚ) then ⌊y⌋ + 1
  else if ⌊y⌋ % 2 = 0 then ⌊y⌋ else ⌊y⌋ + 1

/-- Kind/type of a Go struct field (a `reflect.Type` restricted to the shapes
the materializer dispatches on).  Struct- and pointer-typed fields refer to
their target type by registered name.  Go's fixed-width integer and float
kinds other than `uint8` are collapsed into `kInt`/`kFloat`: no claim
concerns width wrap-around, and the width-cast wrappers in
`InitializeBaseTypeValue` are value-preserving on the claims' inputs.
`kUint8` is kept separate because the coercion switches treat `uint8`
differently from `int`. -/
inductive FieldKind where
  | kString : FieldKind
  | kInt : FieldKind
  | kUint8 : FieldKind
  | kBool : FieldKind
  | kFloat : FieldKind
  | kSlice : FieldKind → FieldKind
  | kStruct : String → FieldKind
  | kPtr : String → FieldKind
  | kIface : FieldKind
  | kMap : FieldKind
deriving DecidableEq

/-- One declared struct field: exported name and kind. -/
structure FieldDesc where
  name : String
  kind : FieldKind
deriving DecidableEq

/-- Structural type information of a registered type (`reflect.Type` of a
struct): its field table. -/
abbrev TypeDesc := List FieldDesc

/-- A materialized Go value (`reflect.Value`).  `vptr tn fields` is a `*T`
instance of registered type `tn`; its association list holds the fields that
have been set, absent fields being at their zero value (it also stands for
the dereferenced struct value where the source calls `.Elem()`).  `vraw`
wraps a dynamic value passed through unconverted (`reflect.ValueOf(data)` on
a raw document, or a value stored in an `interface{}` slot).  `vslice`
remembers its static element kind, as a typed Go slice does.  `vinvalid` is
the zero `reflect.Value`. -/
inductive GoVal where
  | vinvalid : GoVal
  | vstr : String → GoVal
  | vint : Int → GoVal
  | vuint8 : Nat → GoVal
  | vbool : Bool → GoVal
  | vfloat : ℚ → GoVal
  | vbytes : List Nat → GoVal
  | vptr : String → List (String × GoVal) → GoVal
  | vslice : FieldKind → List GoVal → GoVal
  | vraw : Value → GoVal

/-- A registered callable: declared parameter types (`NumIn` entries; for a
variadic function the last entry is the slice type of the tail), the variadic
flag, and the underlying behavior.  `impl` consumes the bound arguments and
yields the ordered results together with the side effects the call performs
(modelled as an opaque effect log). -/
structure GoFunc where
  paramTypes : List FieldKind
  variadic : Bool
  impl : List GoVal → List GoVal × List String

/-- Model of `TypeManager` (types.go): the two name-keyed registries.  The Go
maps are modelled as association lists where registration prepends and lookup
takes the first (most recent) binding — observationally the map's
last-write-wins assignment.  The mutex is dropped: all modelled executions
are sequential. -/
structure TypeManager where
  typeRegistry : List (String × TypeDesc)
  functionRegistry : List (String × GoFunc)

/-- `TypeManager.RegisterType` (types.go line 25): overwrites silently. -/
def RegisterTypeTM (tm : TypeManager) (name : String) (t : TypeDesc) : TypeManager :=
  { tm with typeRegistry := (name, t) :: tm.typeRegistry }

/-- `TypeManager.GetType` (types.go line 32): case-sensitive exact lookup. -/
def GetTypeTM (tm : TypeManager) (name : String) : Option TypeDesc :=
  tm.typeRegistry.lookup name

/-- `TypeManager.RegisterFunc` (types.go line 48): overwrites silently. -/
def RegisterFuncTM (tm : TypeManager) (name : String) (f : GoFunc) : TypeManager :=
  { tm with functionRegistry := (name, f) :: tm.functionRegistry }

/-- `TypeManager.GetFunc` (types.go line 55). -/
def GetFuncTM (tm : TypeManager) (name : String) : Option GoFunc :=
  tm.functionRegistry.lookup name

/-- Go map read `data["TYPENAME"]` on a document association list. -/
def lookupKey (data : List (String × Value)) (k : String) : Option Value :=
  data.lookup k

/-- `reflect.Type.FieldByName` on a field table (exact, case-sensitive). -/
def findField (t : TypeDesc) (name : String) : Option FieldDesc :=
  t.find? (fun fd => fd.name = name)

/-- Setting an exported field on an instance:
`v.Elem().FieldByName(name).Set(g)` modelled as association-list update. -/
def setField (fields : List (String × GoVal)) (name : String) (g : GoVal) :
    List (String × GoVal) :=
  match fields with
  | [] => [(name, g)]
  | (n, v) :: r => if n = name then (n, g) :: r else (n, v) :: setField r name g

/-- Zero value of a field kind (fresh instance fields, `reflect.MakeSlice`
slots, `reflect.Zero`).  A nil slice and an empty slice are not distinguished
by the model; nil pointers, interfaces and maps are a null raw value. -/
def zeroOfKind : FieldKind → GoVal
  | .kString => .vstr ""
  | .kInt => .vint 0
  | .kUint8 => .vuint8 0
  | .kBool => .vbool false
  | .kFloat => .vfloat 0
  | .kSlice e => .vslice e []
  | .kStruct tn => .vptr tn []
  | .kPtr _ => .vraw .null
  | .kIface => .vraw .null
  | .kMap => .vraw .null

/-- Runtime type (`reflect.TypeOf`) of a dynamic value, as a field kind;
`none` for the nil interface (whose `TypeOf` is nil). -/
def runtimeKindOfValue : Value → Option FieldKind
  | .null => none
  | .str _ => some .kString
  | .int _ => some .kInt
  | .uint8v _ => some .kUint8
  | .float _ => some .kFloat
  | .bool _ => some .kBool
  | .bytes _ => some (.kSlice .kUint8)
  | .doc _ => some .kMap
  | .arr _ => some (.kSlice .kIface)

/-- `reflect.ValueOf` of a dynamic value. -/
def goValOfValue : Value → GoVal
  | .null => .vraw .null
  | .str s => .vstr s
  | .int n => .vint n
  | .uint8v b => .vuint8 b
  | .float q => .vfloat q
  | .bool b => .vbool b
  | .bytes bs => .vbytes bs
  | .doc d => .vraw (.doc d)
  | .arr xs => .vraw (.arr xs)

/-- Runtime type of a materialized value, for assignability checks. -/
def runtimeKindOfGoVal : GoVal → Option FieldKind
  | .vinvalid => none
  | .vstr _ => some .kString
  | .vint _ => some .kInt
  | .vuint8 _ => some .kUint8
  | .vbool _ => some .kBool
  | .vfloat _ => some .kFloat
  | .vbytes _ => some (.kSlice .kUint8)
  | .vptr tn _ => some (.kPtr tn)
  | .vslice e _ => some (.kSlice e)
  | .vraw v => runtimeKindOfValue v

/-- Go assignability as used by `reflect.Value.Set`: identical type, or an
interface target (the field kinds at play implement the empty interface). -/
def fitsKind (g : GoVal) (k : FieldKind) : Bool :=
  k = .kIface || runtimeKindOfGoVal g = some k

/-- `reflect.Value.IsValid`. -/
def GoVal.isValid : GoVal → Bool
  | .vinvalid => false
  | _ => true

/-- Model of `InitializeBaseTypeValue` (dynamic_reflect.go line 365).  Result
levels: `none` = a coercion panic propagating out of `ToString`/`ToInt`/...
(`log.Panicln`); `some none` = the invalid zero `reflect.Value` (nil input,
or the logging `Array`/default branches, which cover slice/struct/pointer/map
kinds); `some (some g)` = a converted value.  The source's per-width cases
all funnel through the same three coercions. -/
def InitializeBaseTypeValue (t : FieldKind) (value : Value) : Option (Option GoVal) :=
  match value with
  | .null => some none
  | _ =>
    match t with
    | .kIface => some (some (.vraw value))
    | .kString => (goToString value).map (fun s => some (.vstr s))
    | .kBool => (goToBool value).map (fun b => some (.vbool b))
    | .kInt => (goToInt value).map (fun n => some (.vint n))
    | .kUint8 => (goToInt value).map (fun n => some (.vuint8 (n % 256).toNat))
    | .kFloat => (goToNumeric value).map (fun q => some (.vfloat q))
    | _ => some none

/-- `FieldByName` read on a materialized instance: resolves the declared
field via the registry entry for the instance's type, returning the stored
value or the field's zero value; `none` models an invalid (undeclared)
field. -/
def fieldByName (tm : TypeManager) (tn : String) (fields : List (String × GoVal))
    (name : String) : Option GoVal :=
  match GetTypeTM tm tn with
  | none => none
  | some t =>
    match findField t name with
    | none => none
    | some fd => some ((fields.lookup name).getD (zeroOfKind fd.kind))

-- Lemma used by the termination proofs: the byte-element expansion of a
-- `[]uint8` slice element weighs less than the `bytes` value that spawned it.
theorem lsize_map_uint8v (bs : List Nat) : lsize (bs.map Value.uint8v) = 2 * bs.length := by
  induction bs with
  | nil => simp [lsize]
  | cons b r ih => simp [lsize, vsize, ih]; ring

/-
The recursive materializer (dynamic_reflect.go lines 111-361).  All functions
thread the entity-callback invocation trace: the second component of each
result lists, in invocation order, the values passed to `setEntity`.  `cb`
models `setEntity != nil`.  `none` models a run-time panic.
-/
mutual

/-- `InitializeStructure` (line 120): top-level document materialization. -/
def InitializeStructure (tm : TypeManager) (cb : Bool) (data : List (String × Value)) :
    Option ((GoVal × Option String) × List GoVal) :=
  match lookupKey data "TYPENAME" with
  | none => some ((.vinvalid, some "NotDynamicObject"), [])
  | some tnAny =>
    match goToString tnAny with
    | none => none
    | some tn =>
      match GetTypeTM tm tn with
      | some _ =>
        match MakeInstance tm cb tn data with
        | none => none
        | some (v, tr) =>
          if cb && v.isValid then some ((v, none), tr ++ [v]) else some ((v, none), tr)
      | none => some ((.vraw (.doc data), none), [])
termination_by 8 * dsize data + 7
decreasing_by
  all_goals simp [vsize, dsize, lsize, lsize_map_uint8v]
  all_goals (try split)
  all_goals omega


/-- `MakeInstance` (line 111): create and initialize an instance, invoking
the entity callback on the created value. -/
def MakeInstance (tm : TypeManager) (cb : Bool) (tn : String)
    (data : List (String × Value)) : Option (GoVal × List GoVal) :=
  match initializeStructureValue tm cb tn data with
  | none => none
  | some (v, tr) => if cb && v.isValid then some (v, tr ++ [v]) else some (v, tr)
termination_by 8 * dsize data + 6
decreasing_by
  all_goals simp [vsize, dsize, lsize, lsize_map_uint8v]
  all_goals (try split)
  all_goals omega


/-- `initializeStructureValue` (line 215): allocate `*T` and set its fields
from the document; unregistered type names pass the raw document through. -/
def initializeStructureValue (tm : TypeManager) (cb : Bool) (tn : String)
    (data : List (String × Value)) : Option (GoVal × List GoVal) :=
  match GetTypeTM tm tn with
  | none => some (.vraw (.doc data), [])
  | some t =>
    match initFields tm cb t [] data with
    | none => none
    | some (fs, tr) => some (.vptr tn fs, tr)
termination_by 8 * dsize data + 5
decreasing_by
  all_goals simp [vsize, dsize, lsize, lsize_map_uint8v]
  all_goals (try split)
  all_goals omega


/-- The `for name, raw := range data` loop body of `initializeStructureValue`
(lines 222-229): nil values and keys with no matching declared field are
skipped. -/
def initFields (tm : TypeManager) (cb : Bool) (t : TypeDesc)
    (acc : List (String × GoVal)) (rest : List (String × Value)) :
    Option (List (String × GoVal) × List GoVal) :=
  match rest with
  | [] => some (acc, [])
  | (_, .null) :: rs => initFields tm cb t acc rs
  | (name, raw) :: rs =>
    match findField t name with
    | none => initFields tm cb t acc rs
    | some fd =>
      match initializeStructureFieldValue tm cb acc name fd.kind raw with
      | none => none
      | some (acc2, tr1) =>
        match initFields tm cb t acc2 rs with
        | none => none
        | some (accF, tr2) => some (accF, tr1 ++ tr2)
termination_by 8 * dsize rest + 4
decreasing_by
  all_goals simp [vsize, dsize, lsize, lsize_map_uint8v]
  all_goals (try split)
  all_goals omega


/-- `initializeStructureFieldValue` (line 280): set one struct field from a
dynamic value, dispatching on the field's declared kind. -/
def initializeStructureFieldValue (tm : TypeManager) (cb : Bool)
    (fields : List (String × GoVal)) (fieldName : String) (fieldKind : FieldKind)
    (fieldValue : Value) : Option (List (String × GoVal) × List GoVal) :=
  match fieldKind with
  | .kSlice elem =>
    match fieldValue with
    | .bytes _ =>
      -- []uint8 payload (line 286): InitializeBaseTypeValue hits its logging
      -- default on a slice kind and yields the invalid Value, and the
      -- unconditional fv.Bytes() then panics on the zero Value.
      none
    | .arr xs =>
      -- generic slice (lines 299-306)
      match arrayFill tm cb (List.replicate xs.length (zeroOfKind elem)) elem
          fieldName (.kSlice elem) 0 xs with
      | none => none
      | some (sl, tr) => some (setField fields fieldName (.vslice elem sl), tr)
    | _ => some (fields, [])
  | .kStruct tn =>
    match fieldValue with
    | .doc m =>
      match InitializeStructure tm cb m with
      | none => none
      | some ((fv, _err), tr) =>
        match fv with
        | .vinvalid => some (fields, tr)
        | .vptr u fu =>
          -- fv.Elem() dereferences; Set requires the struct types to agree.
          if u = tn then some (setField fields fieldName (.vptr u fu), tr) else none
        | _ => none -- fv.Elem() on a raw (non-pointer) value panics
    | _ => some (fields, [])
  | .kPtr tn =>
    match fieldValue with
    | .doc m =>
      match InitializeStructure tm cb m with
      | none => none
      | some ((fv, _err), tr) =>
        match fv with
        | .vinvalid => some (fields, tr)
        | .vptr u fu =>
          if u = tn then some (setField fields fieldName (.vptr u fu), tr) else none
        | _ => none -- Set of a raw map into a pointer field panics
    | _ => some (fields, [])
  | .kIface =>
    -- re-dispatch on the runtime type of the supplied value (line 323)
    match fieldValue with
    | .null => none
    | .str s => initializeStructureFieldValue tm cb fields fieldName .kString (.str s)
    | .int n => initializeStructureFieldValue tm cb fields fieldName .kInt (.int n)
    | .uint8v b => initializeStructureFieldValue tm cb fields fieldName .kUint8 (.uint8v b)
    | .float q => initializeStructureFieldValue tm cb fields fieldName .kFloat (.float q)
    | .bool b => initializeStructureFieldValue tm cb fields fieldName .kBool (.bool b)
    | .bytes bs =>
      initializeStructureFieldValue tm cb fields fieldName (.kSlice .kUint8) (.bytes bs)
    | .doc d => initializeStructureFieldValue tm cb fields fieldName .kMap (.doc d)
    | .arr xs =>
      initializeStructureFieldValue tm cb fields fieldName (.kSlice .kIface) (.arr xs)
  | .kMap =>
    match fieldValue with
    | .doc m =>
      match InitializeStructure tm cb m with
      | none => none
      | some ((fv, err), tr) =>
        match err, fv with
        | none, .vptr _ _ => none -- Set of *T into a map-typed field panics
        | none, .vraw w => some (setField fields fieldName (.vraw w), tr)
        | none, .vinvalid => some (setField fields fieldName (.vraw (.doc m)), tr)
        | none, _ => none
        | some _, _ => some (setField fields fieldName (.vraw (.doc m)), tr)
    | _ => some (fields, [])
  | .kString =>
    match fieldValue with
    | .doc m =>
      match InitializeStructure tm cb m with
      | none => none
      | some ((fv, err), tr) =>
        match err, fv with
        | none, .vptr u fu =>
          -- u := fv.Elem().FieldByName("UUID") (line 338)
          match fieldByName tm u fu "UUID" with
          | some (.vstr s) => some (setField fields fieldName (.vstr s), tr)
          | some _ => none -- UUID field not of string kind: falls through to
                           -- line 344, Set of a map into a string field panics
          | none => none   -- UUID field absent: line 344 panics likewise
        | none, .vraw _ => none -- fv.Elem() on a raw map panics
        | _, _ => none          -- err != nil: line 344 panics
    | _ =>
      -- normal scalar coercion (lines 345-350); Convert is the identity here
      match InitializeBaseTypeValue .kString fieldValue with
      | none => none
      | some none => some (fields, [])
      | some (some g) => some (setField fields fieldName g, [])
  | k =>
    -- scalar default (lines 352-360); the coerced value already carries the
    -- field's kind, so the conditional Convert is the identity
    match InitializeBaseTypeValue k fieldValue with
    | none => none
    | some none => some (fields, [])
    | some (some g) => some (setField fields fieldName g, [])
termination_by 8 * vsize fieldValue + (if fieldKind = .kIface then 3 else 2)
decreasing_by
  all_goals simp [vsize, dsize, lsize, lsize_map_uint8v]
  all_goals (try split)
  all_goals omega


/-- `InitializeStructureFieldArrayValue` (line 234): the slice-filling loop.
`slice` is the pre-allocated zero-filled result of `reflect.MakeSlice` with
static element kind `elemK`; `ftParam` is the `fieldType` parameter (the
outer slice type at the top call, the element's runtime type in recursive
calls, exactly as in the source); `i` is the loop index. -/
def arrayFill (tm : TypeManager) (cb : Bool) (slice : List GoVal) (elemK : FieldKind)
    (fieldName : String) (ftParam : FieldKind) (i : Nat) (values : List Value) :
    Option (List GoVal × List GoVal) :=
  match values with
  | [] => some (slice, [])
  | v_ :: rest =>
    match v_ with
    | .null => arrayFill tm cb slice elemK fieldName ftParam (i + 1) rest
    | .doc m =>
      match lookupKey m "TYPENAME" with
      | some tnAny =>
        match tnAny with
        | .str tn =>
          match initializeStructureValue tm cb tn m with
          | none => none
          | some (fv, tr0) =>
            -- one explicit callback on the created element (lines 246-248)
            let withEnt := if cb && fv.isValid then tr0 ++ [fv] else tr0
            if goStartsWith fieldName "M_" then
              match lookupKey m "UUID" with
              | some uuidAny =>
                match goToString uuidAny with
                | none => none
                | some us =>
                  if fitsKind (.vstr us) elemK then
                    match arrayFill tm cb (slice.set i (.vstr us)) elemK fieldName
                        ftParam (i + 1) rest with
                    | none => none
                    | some (sl, tr2) => some (sl, withEnt ++ tr2)
                  else none -- Set of a string into an incompatible slot panics
              | none =>
                -- no UUID key: nothing stored, the slot keeps its zero value
                match arrayFill tm cb slice elemK fieldName ftParam (i + 1) rest with
                | none => none
                | some (sl, tr2) => some (sl, withEnt ++ tr2)
            else
              if fitsKind fv elemK then
                match arrayFill tm cb (slice.set i fv) elemK fieldName ftParam
                    (i + 1) rest with
                | none => none
                | some (sl, tr2) => some (sl, withEnt ++ tr2)
              else none -- Set type mismatch panics
        | _ => none -- tn.(string) type assertion panics
      | none =>
        -- document without TYPENAME: stored raw (line 257)
        if fitsKind (.vraw (.doc m)) elemK then
          arrayFill tm cb (slice.set i (.vraw (.doc m))) elemK fieldName ftParam
            (i + 1) rest
        else none
    | .arr ys =>
      -- nested slice (lines 260-265): slice_ := MakeSlice(ftParam, len, len)
      match ftParam with
      | .kSlice fe =>
        match arrayFill tm cb (List.replicate ys.length (zeroOfKind fe)) fe fieldName
            (.kSlice .kIface) 0 ys with
        | none => none
        | some (sl2, _tr2) =>
          if fitsKind (.vslice fe sl2) elemK then
            match arrayFill tm cb (slice.set i (.vslice fe sl2)) elemK fieldName
                ftParam (i + 1) rest with
            | none => none
            | some (sl3, tr3) => some (sl3, _tr2 ++ tr3)
          else none
      | _ => none -- MakeSlice on a non-slice type panics
    | .bytes bs =>
      -- a []uint8 element also has slice kind and takes the nested path,
      -- elementwise over its (uint8-typed) bytes
      match ftParam with
      | .kSlice fe =>
        match arrayFill tm cb (List.replicate bs.length (zeroOfKind fe)) fe fieldName
            (.kSlice .kUint8) 0 (bs.map Value.uint8v) with
        | none => none
        | some (sl2, _tr2) =>
          if fitsKind (.vslice fe sl2) elemK then
            match arrayFill tm cb (slice.set i (.vslice fe sl2)) elemK fieldName
                ftParam (i + 1) rest with
            | none => none
            | some (sl3, tr3) => some (sl3, _tr2 ++ tr3)
          else none
      | _ => none
    | _ =>
      -- scalar element (lines 266-274)
      match InitializeBaseTypeValue elemK v_ with
      | none => none
      | some none => arrayFill tm cb slice elemK fieldName ftParam (i + 1) rest
      | some (some g) =>
        if fitsKind g elemK then
          arrayFill tm cb (slice.set i g) elemK fieldName ftParam (i + 1) rest
        else none
termination_by 8 * lsize values + 4
decreasing_by
  all_goals simp [vsize, dsize, lsize, lsize_map_uint8v]
  all_goals (try split)
  all_goals omega


end

/-- The homogeneity scan of `InitializeArray` (lines 189-195): walks
consecutive pairs while `sameType` holds, skipping nil current elements; a
non-nil element whose predecessor is nil makes the source call
`reflect.TypeOf(nil).String()`, which panics (`none`).  Runtime types are
compared via their kinds, which are in bijection with the `Type.String()`
names on the value universe. -/
def scanSame (prev : Value) (rest : List Value) (st : Bool) : Option Bool :=
  match rest with
  | [] => some st
  | cur :: r =>
    if st = false then some st
    else
      match cur with
      | .null => scanSame cur r st
      | _ =>
        match runtimeKindOfValue prev with
        | none => none
        | some tp => scanSame cur r (decide (runtimeKindOfValue cur = some tp))

/-- The building loop of `InitializeArray` (lines 197-209).  The accumulator
is `none` until the `i == 0` initialization has run; `reflect.Append` on the
uninitialized zero `Value` panics (`none` result), which happens whenever the
first element is nil but a later one is not. -/
def buildArr (st : Bool) (i : Nat) (data : List Value)
    (acc : Option (FieldKind × List GoVal)) : Option (Option (FieldKind × List GoVal)) :=
  match data with
  | [] => some acc
  | x :: rest =>
    match x with
    | .null => buildArr st (i + 1) rest acc
    | _ =>
      let acc2 : Option (FieldKind × List GoVal) :=
        if i = 0 then
          if st then (runtimeKindOfValue x).map (fun k => (k, []))
          else some (.kIface, [])
        else acc
      match acc2 with
      | none => none
      | some (k, xs) =>
        if fitsKind (goValOfValue x) k then
          buildArr st (i + 1) rest (some (k, xs ++ [goValOfValue x]))
        else none

/-- `InitializeArray` (line 185): convert `[]interface{}` into a typed slice
when the elements are uniform, else `[]interface{}`.  `some .vinvalid` is the
zero `reflect.Value` returned (with nil error) when no element ever
initialized the result slice. -/
def InitializeArray (data : List Value) : Option GoVal :=
  let same : Option Bool :=
    match data with
    | [] => some true
    | [_] => some true
    | a :: rest => scanSame a rest true
  match same with
  | none => none
  | some st =>
    match buildArr st 0 data none with
    | none => none
    | some none => some .vinvalid
    | some (some (k, xs)) => some (.vslice k xs)

/-- Go's `unicode/utf8`-style rune-to-string conversion used by `Convert`
from an integer type to `string`: invalid code points map to U+FFFD. -/
def runeString (n : Int) : String :=
  if 0 ≤ n ∧ (n < 0xD800 ∨ (0xE000 ≤ n ∧ n ≤ 0x10FFFF)) then
    String.singleton (Char.ofNat n.toNat)
  else "�"

/-- Model of `reflect.Value.CanConvert`/`Convert` between the kinds the
invoker can meet: any type converts to the empty interface; numeric kinds
interconvert (float-to-int truncating toward zero, narrowing reducing
modulo the width); integers convert to strings as runes; byte slices and
strings interconvert.  `none` models `CanConvert` returning false. -/
def canConvertRes (p : Value) (k : FieldKind) : Option GoVal :=
  match k with
  | .kIface => some (.vraw p)
  | _ =>
    match p, k with
    | .int n, .kFloat => some (.vfloat (n : ℚ))
    | .int n, .kUint8 => some (.vuint8 ((n % 256).toNat))
    | .int n, .kString => some (.vstr (runeString n))
    | .uint8v b, .kInt => some (.vint (b : Int))
    | .uint8v b, .kFloat => some (.vfloat (b : ℚ))
    | .float q, .kInt => some (.vint (ratTrunc q))
    | .float q, .kUint8 => some (.vuint8 (((ratTrunc q) % 256).toNat))
    | .bytes bs, .kString => some (.vstr (bytesAsString bs))
    | .str s, .kSlice .kUint8 => some (.vbytes (stringBytes s))
    | _, _ => none

/-- The target parameter type for argument `i` (`ft.In(i)`, or the variadic
element type `ft.In(NumIn()-1).Elem()` for the tail); `none` models the
panic of `.Elem()` on a non-slice final parameter. -/
def argTarget (f : GoFunc) (i : Nat) : Option FieldKind :=
  if !f.variadic || i < f.paramTypes.length - 1 then
    some (f.paramTypes.getD i .kIface)
  else
    match f.paramTypes.getLast? with
    | some (.kSlice e) => some e
    | _ => none

/-- Per-argument binding of `CallFunction`/`CallMethod` (lines 446-471 /
500-521): nil becomes the zero value of a fixed parameter type or a nil
interface value in the variadic tail; a non-nil argument of a different but
convertible type is converted, otherwise passed unchanged (letting the call
itself fail). -/
def bindArg (f : GoFunc) (i : Nat) (p : Value) : Option GoVal :=
  match p with
  | .null =>
    if !f.variadic || i < f.paramTypes.length - 1 then
      (argTarget f i).map zeroOfKind
    else some (.vraw .null)
  | _ =>
    match argTarget f i with
    | none => none
    | some t =>
      match runtimeKindOfValue p with
      | none => some (goValOfValue p)
      | some rk =>
        if rk = t then some (goValOfValue p)
        else
          match canConvertRes p t with
          | some g => some g
          | none => some (goValOfValue p)

def buildArgs (f : GoFunc) (i : Nat) : List Value → Option (List GoVal)
  | [] => some []
  | p :: rest =>
    match bindArg f i p with
    | none => none
    | some g => (buildArgs f (i + 1) rest).map (fun gs => g :: gs)

/-- Assignability of the bound arguments to the declared parameter types, as
`reflect.Value.Call` checks before invoking. -/
def argsFit (f : GoFunc) (args : List GoVal) (i : Nat) : Bool :=
  match args with
  | [] => true
  | g :: rest =>
    match argTarget f i with
    | none => false
    | some t => fitsKind g t && argsFit f rest (i + 1)

/-- `reflect.Value.Call`: panics (`none`) on an argument count below the
fixed-parameter minimum, a count mismatch for non-variadic signatures, or an
unassignable argument; otherwise runs the function, producing its results
and its side-effect log. -/
def goCall (f : GoFunc) (args : List GoVal) :
    Option (Except String (List GoVal) × List String) :=
  if f.variadic then
    if args.length < f.paramTypes.length - 1 then none
    else if argsFit f args 0 then
      let r := f.impl args
      some (.ok r.1, r.2)
    else none
  else
    if args.length ≠ f.paramTypes.length then none
    else if argsFit f args 0 then
      let r := f.impl args
      some (.ok r.1, r.2)
    else none

/-- `CallFunction` (line 428): dynamic call of a registered function.  The
second component is the side-effect log of the call; it is empty whenever the
underlying function was never invoked. -/
def CallFunction (tm : TypeManager) (name : String) (params : List Value) :
    Option (Except String (List GoVal) × List String) :=
  match GetFuncTM tm name with
  | none => some (.error ("no function was register with name " ++ name), [])
  | some f =>
    if !f.variadic && params.length ≠ f.paramTypes.length then
      some (.error ("Wrong number of parameter for " ++ name ++ " got " ++
        toString params.length ++ " but expect " ++ toString f.paramTypes.length), [])
    else
      match buildArgs f 0 params with
      | none => none
      | some args => goCall f args

/-- An instance, for method dispatch: its exposed method set
(`reflect.Value.MethodByName`, exact case-sensitive names). -/
structure GoObject where
  methods : List (String × GoFunc)

/-- `CallMethod` (line 480): dynamic method call on an instance. -/
def CallMethod (inst : Option GoObject) (methodName : String) (params : List Value) :
    Option (Except String (List GoVal) × List String) :=
  match inst with
  | none => some (.error "CallMethod: instance is nil", [])
  | some obj =>
    match obj.methods.lookup methodName with
    | none => some (.error ("CallMethod: method " ++ methodName ++ " not found"), [])
    | some m =>
      if !m.variadic && params.length ≠ m.paramTypes.length then
        some (.error ("CallMethod: wrong number of parameters for " ++ methodName ++
          " got " ++ toString params.length ++ " but expect " ++
          toString m.paramTypes.length), [])
      else
        match buildArgs m 0 params with
        | none => none
        | some args => goCall m args

/-
Concrete fixtures shared by witnesses and counterexamples.
-/

/-- A registry holding one empty registered type `T`. -/
def regT : TypeManager := ⟨[("T", [])], []⟩

/-- The document `⟨"TYPENAME": "T"⟩`. -/
def docT : List (String × Value) := [("TYPENAME", Value.str "T")]

/-- A registry with `T` (string fields `Owner`, without reference marker, and
`M_owner`, with it) and `U` (string field `UUID`). -/
def regTU : TypeManager :=
  ⟨[("T", [⟨"Owner", .kString⟩, ⟨"M_owner", .kString⟩]),
    ("U", [⟨"UUID", .kString⟩])], []⟩

/-- The sub-document `⟨"TYPENAME": "U", "UUID": "u-1"⟩`. -/
def subU : List (String × Value) := [("TYPENAME", Value.str "U"), ("UUID", Value.str "u-1")]

/-- A document whose unmarked string field `Owner` holds a typed sub-document. -/
def docOwner : List (String × Value) :=
  [("TYPENAME", Value.str "T"), ("Owner", Value.doc subU)]

/-- The materialized `U` instance of `subU`. -/
def uInst : GoVal := .vptr "U" [("UUID", .vstr "u-1")]

/-- The materialized `T` instance of `docOwner`. -/
def tInst : GoVal := .vptr "T" [("Owner", .vstr "u-1")]

/-- A do-nothing registered function descriptor. -/
def noopFunc : GoFunc := ⟨[], false, fun _ => ([], [])⟩

/-- A two-parameter non-variadic function whose invocation logs an effect. -/
def addFunc : GoFunc := ⟨[.kInt, .kInt], false, fun _ => ([.vint 0], ["ran"])⟩

/-- C10: `ToInt` on a nil input returns 0 without panicking, while the other
three coercion functions all panic on nil (their `reflect.TypeOf(value)` is
the nil interface, and calling `Kind()` on it aborts): the nil guard is
specific to `ToInt`. -/
theorem c10_toInt_nil_guard :
    goToInt Value.null = some 0 ∧ goToString Value.null = none ∧
    goToBool Value.null = none ∧ goToNumeric Value.null = none :=
  ⟨rfl, rfl, rfl, rfl⟩

/-- C9 (code bug evidence): `InitializeArray` panics on `[1, null, 2]` — the
homogeneity scan calls `TypeOf(nil).String()` on the nil predecessor — even
though the claim (and the explicit nil guards in the code) intend nulls to be
skipped; the claim's homogeneity and ordering parts do hold on null-free
inputs: `[1, "a", true]` yields an untyped 3-element sequence in input order
and `[1, 2, 3]` a typed integer sequence. -/
theorem c9_initializeArray_null_panic :
    InitializeArray [Value.int 1, Value.null, Value.int 2] = none ∧
    InitializeArray [Value.int 1, Value.str "a", Value.bool true] =
      some (.vslice .kIface [.vint 1, .vstr "a", .vbool true]) ∧
    InitializeArray [Value.int 1, Value.int 2, Value.int 3] =
      some (.vslice .kInt [.vint 1, .vint 2, .vint 3]) :=
  ⟨rfl, rfl, rfl⟩

/-- C5: a document without the `TYPENAME` marker makes the top-level entry
point fail with the malformed-document error (`NotDynamicObject`), with no
instance constructed and no entity callback fired. -/
theorem c5_missing_typename (tm : TypeManager) (cb : Bool)
    (data : List (String × Value)) (h : lookupKey data "TYPENAME" = none) :
    InitializeStructure tm cb data =
      some ((GoVal.vinvalid, some "NotDynamicObject"), []) := by
  simp [InitializeStructure, h]

/-- Witness for C5 at the concrete document `⟨"A": 1⟩`. -/
theorem c5_witness :
    lookupKey [("A", Value.int 1)] "TYPENAME" = none ∧
    InitializeStructure regT true [("A", Value.int 1)] =
      some ((GoVal.vinvalid, some "NotDynamicObject"), []) :=
  ⟨rfl, c5_missing_typename regT true [("A", Value.int 1)] rfl⟩

/-- C3: a document carrying a `TYPENAME` that names an unregistered type is
passed through: the original mapping is returned unchanged, with no error and
no callback. -/
theorem c3_unregistered_passthrough (tm : TypeManager) (cb : Bool)
    (data : List (String × Value)) (v : Value) (tn : String)
    (h1 : lookupKey data "TYPENAME" = some v) (h2 : goToString v = some tn)
    (h3 : GetTypeTM tm tn = none) :
    InitializeStructure tm cb data = some ((GoVal.vraw (Value.doc data), none), []) := by
  simp [InitializeStructure, h1, h2, h3]

/-- Witness for C3 at `Materialize(⟨"TYPENAME": "unknown.X", "A": 1⟩)` against
an empty registry. -/
theorem c3_witness :
    lookupKey [("TYPENAME", Value.str "unknown.X"), ("A", Value.int 1)] "TYPENAME" =
      some (Value.str "unknown.X") ∧
    goToString (Value.str "unknown.X") = some "unknown.X" ∧
    GetTypeTM ⟨[], []⟩ "unknown.X" = none ∧
    InitializeStructure ⟨[], []⟩ true [("TYPENAME", Value.str "unknown.X"), ("A", Value.int 1)] =
      some ((GoVal.vraw (Value.doc [("TYPENAME", Value.str "unknown.X"), ("A", Value.int 1)]),
        none), []) :=
  ⟨rfl, rfl, rfl,
    c3_unregistered_passthrough ⟨[], []⟩ true _ (Value.str "unknown.X") "unknown.X" rfl rfl rfl⟩

/-- C6: registering twice under one name leaves the registry answering with
the second descriptor (silent overwrite, last write wins), for types and for
functions alike, and no other (in particular no differently-cased) name is
affected. -/
theorem c6_registry_overwrite (tm : TypeManager) (name other : String)
    (d1 d2 : TypeDesc) (f1 f2 : GoFunc) :
    GetTypeTM (RegisterTypeTM (RegisterTypeTM tm name d1) name d2) name = some d2 ∧
    GetFuncTM (RegisterFuncTM (RegisterFuncTM tm name f1) name f2) name = some f2 ∧
    (other ≠ name →
      GetTypeTM (RegisterTypeTM (RegisterTypeTM tm name d1) name d2) other =
        GetTypeTM tm other ∧
      GetFuncTM (RegisterFuncTM (RegisterFuncTM tm name f1) name f2) other =
        GetFuncTM tm other) := by
  refine ⟨?_, ?_, fun h => ?_⟩
  · simp [GetTypeTM, RegisterTypeTM, List.lookup]
  · simp [GetFuncTM, RegisterFuncTM, List.lookup]
  · have hb : (other == name) = false := beq_eq_false_iff_ne.mpr h
    constructor <;>
      simp [GetTypeTM, RegisterTypeTM, GetFuncTM, RegisterFuncTM, List.lookup, hb]

/-- Witness for C6 with descriptors registered under `"Foo"` and a
differently-cased probe `"foo"`. -/
theorem c6_witness :
    GetTypeTM (RegisterTypeTM (RegisterTypeTM ⟨[], []⟩ "Foo" []) "Foo" [⟨"A", .kInt⟩]) "Foo" =
      some [⟨"A", .kInt⟩] ∧
    GetFuncTM (RegisterFuncTM (RegisterFuncTM ⟨[], []⟩ "Foo" noopFunc) "Foo" addFunc) "Foo" =
      some addFunc ∧
    GetTypeTM (RegisterTypeTM (RegisterTypeTM ⟨[], []⟩ "Foo" []) "Foo" [⟨"A", .kInt⟩]) "foo" =
      GetTypeTM ⟨[], []⟩ "foo" := by
  have h := c6_registry_overwrite ⟨[], []⟩ "Foo" "foo" [] [⟨"A", .kInt⟩] noopFunc addFunc
  exact ⟨h.1, h.2.1, (h.2.2 (by decide)).1⟩

/-- C4: calling a registered non-variadic function (or resolving a
non-variadic method) with an argument count different from its declared
parameter count yields the arity-mismatch error, and the underlying function
is never invoked: the call's side-effect log is empty. -/
theorem c4_arity_mismatch (tm : TypeManager) (name : String) (f : GoFunc)
    (params : List Value) (obj : GoObject) (mname : String) (m : GoFunc) :
    (GetFuncTM tm name = some f → f.variadic = false →
      params.length ≠ f.paramTypes.length →
      CallFunction tm name params =
        some (.error ("Wrong number of parameter for " ++ name ++ " got " ++
          toString params.length ++ " but expect " ++ toString f.paramTypes.length), [])) ∧
    (obj.methods.lookup mname = some m → m.variadic = false →
      params.length ≠ m.paramTypes.length →
      CallMethod (some obj) mname params =
        some (.error ("CallMethod: wrong number of parameters for " ++ mname ++
          " got " ++ toString params.length ++ " but expect " ++
          toString m.paramTypes.length), [])) := by
  constructor <;> intro h1 h2 h3 <;>
    simp [CallFunction, CallMethod, h1, h2, h3]

/-- Witness for C4: a two-parameter function (and method) called with one
argument. -/
theorem c4_witness :
    GetFuncTM ⟨[], [("f", addFunc)]⟩ "f" = some addFunc ∧
    addFunc.variadic = false ∧
    [Value.int 1].length ≠ addFunc.paramTypes.length ∧
    CallFunction ⟨[], [("f", addFunc)]⟩ "f" [Value.int 1] =
      some (.error "Wrong number of parameter for f got 1 but expect 2", []) ∧
    CallMethod (some ⟨[("Do", addFunc)]⟩) "Do" [Value.int 1] =
      some (.error "CallMethod: wrong number of parameters for Do got 1 but expect 2", []) := by
  have h := c4_arity_mismatch ⟨[], [("f", addFunc)]⟩ "f" addFunc [Value.int 1]
    ⟨[("Do", addFunc)]⟩ "Do" addFunc
  refine ⟨rfl, rfl, by decide, ?_, ?_⟩
  · simpa using h.1 rfl rfl (by decide)
  · simpa using h.2 rfl rfl (by decide)

/-- C1 (code bug evidence): materializing `⟨"TYPENAME": "T"⟩` with a non-null
entity callback fires the callback TWICE for the single constructed instance
(once inside `MakeInstance`, then again in `InitializeStructure`), where the
claim requires exactly once: the invocation trace has length two for a
one-instance document. -/
theorem c1_entity_callback_fires_twice :
    InitializeStructure regT true docT =
      some ((GoVal.vptr "T" [], none), [GoVal.vptr "T" [], GoVal.vptr "T" []]) := by
  simp [InitializeStructure, MakeInstance, initializeStructureValue, initFields,
    initializeStructureFieldValue, findField, lookupKey, goToString, GetTypeTM,
    regT, docT, GoVal.isValid, goTrim, goIsSpace, List.lookup]

/-- C2 (counterexample): the `M_` reference prefix plays no role in the
string-field dispatch.  Materializing `docOwner`, whose string field `Owner`
does NOT carry the prefix yet holds a typed sub-document, still stores the
sub-document's `UUID` value `"u-1"` (invoking the entity callback for the
nested `U` instance, as the trace shows), instead of the normal coercion of
the source value — which would be its JSON rendering, not `"u-1"`. -/
theorem c2_counterexample :
    InitializeStructure regTU true docOwner =
      some ((tInst, none), [uInst, uInst, tInst, tInst]) ∧
    goToString (Value.doc subU) ≠ some "u-1" := by
  constructor
  · simp [InitializeStructure, MakeInstance, initializeStructureValue, initFields,
      initializeStructureFieldValue, fieldByName, findField, lookupKey, goToString,
      GetTypeTM, regTU, docOwner, subU, uInst, tInst, GoVal.isValid, goTrim, goIsSpace,
      List.lookup, InitializeBaseTypeValue, setField]
  · decide

/-- C2 (amended): for EVERY string field name — reference-prefixed or not —
whose source value is a nested document that materializes to an instance
with a string `UUID` field, the field receives that `UUID` value and the
entity callback invocations of the nested materialization are performed;
a string field whose source value is not a document is coerced normally
(through `ToString`). -/
theorem c2_string_field_collapse (tm : TypeManager) (fields : List (String × GoVal))
    (fname : String) (m : List (String × Value)) (utn : String)
    (fu : List (String × GoVal)) (tr : List GoVal) (s : String) (value : Value) :
    (InitializeStructure tm true m = some ((.vptr utn fu, none), tr) →
      fieldByName tm utn fu "UUID" = some (.vstr s) →
      initializeStructureFieldValue tm true fields fname .kString (.doc m) =
        some (setField fields fname (.vstr s), tr)) ∧
    (value ≠ .null → (∀ d, value ≠ Value.doc d) →
      initializeStructureFieldValue tm true fields fname .kString value =
        (goToString value).map (fun str => (setField fields fname (.vstr str), []))) := by
  constructor
  · intro h1 h2
    simp [initializeStructureFieldValue, h1, h2]
  · intro hnull hdoc
    cases value with
    | null => exact absurd rfl hnull
    | doc d => exact absurd rfl (hdoc d)
    | str s2 => simp [initializeStructureFieldValue, InitializeBaseTypeValue, goToString]
    | int n => simp [initializeStructureFieldValue, InitializeBaseTypeValue, goToString]
    | uint8v b => simp [initializeStructureFieldValue, InitializeBaseTypeValue, goToString]
    | float q => simp [initializeStructureFieldValue, InitializeBaseTypeValue, goToString]
    | bool b => simp [initializeStructureFieldValue, InitializeBaseTypeValue, goToString]
    | bytes bs => simp [initializeStructureFieldValue, InitializeBaseTypeValue, goToString]
    | arr xs => simp [initializeStructureFieldValue, InitializeBaseTypeValue, goToString]

/-- Witness for C2 at the reference-marked field `M_owner` with the nested
`U` sub-document: the field receives `"u-1"` and the callback trace carries
the `U` instance. -/
theorem c2_witness :
    InitializeStructure regTU true subU = some ((uInst, none), [uInst, uInst]) ∧
    fieldByName regTU "U" [("UUID", GoVal.vstr "u-1")] "UUID" = some (.vstr "u-1") ∧
    initializeStructureFieldValue regTU true [] "M_owner" .kString (.doc subU) =
      some ([("M_owner", GoVal.vstr "u-1")], [uInst, uInst]) := by
  have h1 : InitializeStructure regTU true subU = some ((uInst, none), [uInst, uInst]) := by
    simp [InitializeStructure, MakeInstance, initializeStructureValue, initFields,
      initializeStructureFieldValue, fieldByName, findField, lookupKey, goToString,
      GetTypeTM, regTU, subU, uInst, GoVal.isValid, goTrim, goIsSpace, List.lookup,
      InitializeBaseTypeValue, setField]
  have h2 : fieldByName regTU "U" [("UUID", GoVal.vstr "u-1")] "UUID" =
      some (.vstr "u-1") := rfl
  have h3 := (c2_string_field_collapse regTU [] "M_owner" subU "U"
    [("UUID", GoVal.vstr "u-1")] [uInst, uInst] "u-1" Value.null).1
    (by simpa [uInst] using h1) h2
  exact ⟨h1, h2, by simpa [setField] using h3⟩

/-- C7 (counterexample): on the 8-byte sequence with the high bit set,
`ToInt` does NOT return the big-endian unsigned value (`2^63`): the
`int(...)` conversion reduces it two's-complement into Go's signed 64-bit
`int`, giving `-2^63`. -/
theorem c7_counterexample :
    goToInt (Value.bytes [128, 0, 0, 0, 0, 0, 0, 0]) = some (-(2 ^ 63)) ∧
    goToInt (Value.bytes [128, 0, 0, 0, 0, 0, 0, 0]) ≠
      some ((beUint64 [128, 0, 0, 0, 0, 0, 0, 0] : Int)) := by
  constructor
  · decide
  · decide

/-- C7 (amended): `ToInt` truncates every floating input toward zero
(`ratTrunc`, so `ToInt(3.9) = 3`), converts booleans to 1/0, parses decimal
strings (`ToInt("42") = 42`), and interprets an 8-byte sequence as its
big-endian value reduced two's-complement into a signed 64-bit integer
(which equals the unsigned big-endian value whenever that value is below
`2^63`). -/
theorem c7_toInt_spec (q : ℚ) (b : Bool) (s : String) (bs : List Nat)
    (h : bs.length = 8) :
    goToInt (.float q) = some (ratTrunc q) ∧
    goToInt (.bool b) = some (if b then 1 else 0) ∧
    goToInt (.str s) = some (goAtoi s) ∧
    goToInt (.str "42") = some 42 ∧
    goToInt (.float ((39 : ℚ) / 10)) = some 3 ∧
    goToInt (.bytes bs) = some (toSigned64 (beUint64 bs)) ∧
    (beUint64 bs < 2 ^ 63 → toSigned64 (beUint64 bs) = (beUint64 bs : Int)) := by
  refine ⟨rfl, rfl, rfl, by decide, ?_, ?_, ?_⟩
  · show some (ratTrunc ((39 : ℚ) / 10)) = some 3
    rw [ratTrunc, if_pos (by norm_num)]
    norm_num [Int.floor_eq_iff]
  · simp [goToInt, h]
  · intro hlt
    rw [toSigned64, if_pos (by omega)]
    omega

/-- Witness for C7 at the byte sequence `[0,0,0,0,0,0,0,42]`. -/
theorem c7_witness :
    ([0, 0, 0, 0, 0, 0, 0, 42] : List Nat).length = 8 ∧
    goToInt (Value.bytes [0, 0, 0, 0, 0, 0, 0, 42]) = some 42 := by
  have h := c7_toInt_spec 0 true "" [0, 0, 0, 0, 0, 0, 0, 42] rfl
  refine ⟨rfl, ?_⟩
  rw [h.2.2.2.2.2.1]
  decide

-- Helper for C8: the source's Modf-plus-adjustment computation agrees with
-- round-half-to-even on every rational, both signs included.
theorem half_even_core (y : ℚ) :
    (if 0 < y then
       if 1 / 2 < y - (ratTrunc y : ℚ) ∨
           (y - (ratTrunc y : ℚ) = 1 / 2 ∧ (ratTrunc y).natAbs % 2 ≠ 0) then
         ratTrunc y + 1 else ratTrunc y
     else
       if y - (ratTrunc y : ℚ) < -(1 / 2) ∨
           (y - (ratTrunc y : ℚ) = -(1 / 2) ∧ (ratTrunc y).natAbs % 2 ≠ 0) then
         ratTrunc y - 1 else ratTrunc y) = rhte y := by
  have h0 : (⌊y⌋ : ℚ) ≤ y := Int.floor_le y
  have h1 : y < ⌊y⌋ + 1 := Int.lt_floor_add_one y
  rcases lt_trichotomy 0 y with hy | hy | hy
  · rw [if_pos hy]
    have ht : ratTrunc y = ⌊y⌋ := if_pos hy.le
    rw [ht, rhte]
    rcases lt_trichotomy (y - (⌊y⌋ : ℚ)) (1 / 2) with hr | hr | hr
    · rw [if_neg (by rintro (h | ⟨h, _⟩) <;> linarith), if_pos hr]
    · by_cases hp : ⌊y⌋ % 2 = 0
      · have hcond : ¬(1 / 2 < y - (⌊y⌋ : ℚ) ∨
            (y - (⌊y⌋ : ℚ) = 1 / 2 ∧ (⌊y⌋).natAbs % 2 ≠ 0)) := by
          rintro (h | ⟨_, h2⟩)
          · linarith
          · omega
        rw [if_neg hcond, if_neg (by linarith), if_neg (by linarith), if_pos hp]
      · rw [if_pos (Or.inr ⟨hr, by omega⟩), if_neg (by linarith), if_neg (by linarith),
          if_neg hp]
    · rw [if_pos (Or.inl hr), if_neg (by linarith), if_pos hr]
  · subst hy
    norm_num [ratTrunc, rhte]
  · rw [if_neg (not_lt.mpr hy.le)]
    have ht : ratTrunc y = ⌈y⌉ := if_neg (not_le.mpr hy)
    by_cases hfy : ((⌊y⌋ : ℚ) = y)
    · have hc : ⌈y⌉ = ⌊y⌋ := by rw [← hfy, Int.ceil_intCast, Int.floor_intCast]
      rw [ht, hc, rhte]
      have hz : y - (⌊y⌋ : ℚ) = 0 := by linarith
      rw [if_neg (by rintro (h | ⟨h, _⟩) <;> linarith), if_pos (by linarith)]
    · have hflt : (⌊y⌋ : ℚ) < y := lt_of_le_of_ne h0 hfy
      have hc : ⌈y⌉ = ⌊y⌋ + 1 := by
        rw [Int.ceil_eq_iff]
        constructor <;> push_cast <;> linarith
      rw [ht, hc, rhte]
      rcases lt_trichotomy (y - (⌊y⌋ : ℚ)) (1 / 2) with hr | hr | hr
      · rw [if_pos (Or.inl (by push_cast; linarith)), if_pos hr]
        ring
      · have he : y - ((⌊y⌋ + 1 : ℤ) : ℚ) = -(1 / 2) := by push_cast; linarith
        by_cases hp : ⌊y⌋ % 2 = 0
        · rw [if_pos (Or.inr ⟨he, by omega⟩), if_neg (by linarith), if_neg (by linarith),
            if_pos hp]
          ring
        · have hcond : ¬(y - ((⌊y⌋ + 1 : ℤ) : ℚ) < -(1 / 2) ∨
              (y - ((⌊y⌋ + 1 : ℤ) : ℚ) = -(1 / 2) ∧ (⌊y⌋ + 1).natAbs % 2 ≠ 0)) := by
            rintro (h | ⟨_, h2⟩)
            · rw [he] at h; linarith
            · omega
          rw [if_neg hcond, if_neg (by linarith), if_neg (by linarith), if_neg hp]
      · rw [if_neg (by rintro (h | ⟨h, _⟩) <;> (push_cast at h; linarith)),
          if_neg (by linarith), if_pos hr]

/-- C8: `Round(x, n)` returns `x` unchanged whenever the scaled magnitude
exceeds `1e17`, and otherwise rounds `x·10^n` half-to-even (the
specification-side `rhte`) and rescales — covering positive and negative
inputs alike. -/
theorem c8_round_spec (x : ℚ) (n : ℤ) :
    (|x * (10 : ℚ) ^ n| > (10 : ℚ) ^ (17 : ℕ) → Round x n = x) ∧
    (|x * (10 : ℚ) ^ n| ≤ (10 : ℚ) ^ (17 : ℕ) →
      Round x n = (rhte (x * (10 : ℚ) ^ n) : ℚ) / (10 : ℚ) ^ n) := by
  constructor
  · intro h
    simp only [Round]
    rw [if_pos h]
  · intro h
    have hpow : (0 : ℚ) < (10 : ℚ) ^ n := zpow_pos (by norm_num) n
    simp only [Round]
    rw [if_neg (not_lt.mpr h)]
    have hiff : (0 < x) = (0 < x * (10 : ℚ) ^ n) :=
      propext (mul_pos_iff_of_pos_right hpow).symm
    simp only [hiff]
    rw [half_even_core (x * (10 : ℚ) ^ n)]

/-- Witness for C8 at the claim's sample points: `Round(2.5, 0) = 2`,
`Round(3.5, 0) = 4`, and symmetrically for the negative inputs. -/
theorem c8_witness :
    |(5 / 2 : ℚ) * (10 : ℚ) ^ (0 : ℤ)| ≤ (10 : ℚ) ^ (17 : ℕ) ∧
    Round (5 / 2) 0 = 2 ∧ Round (7 / 2) 0 = 4 ∧
    Round (-(5 / 2)) 0 = -2 ∧ Round (-(7 / 2)) 0 = -4 := by
  refine ⟨by norm_num [abs_le], ?_, ?_, ?_, ?_⟩
  · rw [(c8_round_spec (5 / 2) 0).2 (by norm_num [abs_le])]
    norm_num [rhte, Int.floor_eq_iff]
  · rw [(c8_round_spec (7 / 2) 0).2 (by norm_num [abs_le])]
    norm_num [rhte, Int.floor_eq_iff]
  · rw [(c8_round_spec (-(5 / 2)) 0).2 (by norm_num [abs_le])]
    norm_num [rhte, Int.floor_eq_iff]
  · rw [(c8_round_spec (-(7 / 2)) 0).2 (by norm_num [abs_le])]
    norm_num [rhte, Int.floor_eq_iff]
